import Mathlib

/-!
Shallow embedding of the workout-logging app (`src/app.py`) and proofs about
the claims of its specification.

The app is a thin Streamlit script.  The parts relevant to the claims are:

* `parse_workout` (app.py lines 54-76): calls the LLM, strips markdown code
  fences from the response text, decodes it with `json.loads`, and returns the
  decoded value; every exception (network failure, blocked response, decode
  error) is swallowed by a bare `except:` which returns `None`.
* the tab-1 logging block (lines 111-162): builds one spreadsheet row per
  decoded item with `.get` defaults, performs a single `append_rows` call,
  clears the Streamlit data cache, shows a success message and then a per-item
  card that indexes the decoded dicts directly (`item['muscle_group']` ...).
* `load_data` and the tab-2 stats block (lines 167-213): reads all records,
  normalizes the exercise column, coerces the weight column with
  `pd.to_numeric(errors to coerce)`, groups by date taking the max weight.

External collaborators (the Gemini call, gspread, the Streamlit runtime and
`datetime.now`) are modelled as explicit inputs.  Python library primitives
(`json.loads`, `str.title`, `str.strip`, `str.replace`, `pd.to_numeric`,
`groupby(...).max()`) are given executable Lean models restricted to the data
shapes the app actually stores: JSON numbers are modelled as integers and
character classes are ASCII.
-/

/-- Decoded JSON value as produced by `json.loads`, with numbers restricted to
integers (the model of numeric literals used throughout this development). -/
inductive Json where
  | null
  | bool (b : Bool)
  | num (n : Int)
  | str (s : String)
  | arr (elems : List Json)
  | obj (fields : List (String × Json))

/-- ASCII whitespace test used by the JSON scanner and the model of
`str.strip`. -/
def isWs (c : Char) : Bool :=
  c = ' ' || c = '\t' || c = '\n' || c = '\r'

/-- Drop leading whitespace characters. -/
def skipWs : List Char → List Char
  | [] => []
  | c :: cs => if isWs c then skipWs cs else c :: cs

/-- Decode one JSON string escape character. -/
def escChar (e : Char) : Option Char :=
  if e = 'n' then some '\n'
  else if e = 't' then some '\t'
  else if e = 'r' then some '\r'
  else if e = '"' then some '"'
  else if e = '/' then some '/'
  else if e = '\\' then some '\\'
  else none

/-- Scan the body of a JSON string literal (the opening quote has already been
consumed); returns the decoded characters and the rest of the input. -/
def scanStringBody : List Char → Option (List Char × List Char)
  | [] => none
  | '"' :: cs => some ([], cs)
  | '\\' :: e :: cs =>
    match escChar e with
    | none => none
    | some d =>
      match scanStringBody cs with
      | none => none
      | some (out, rest) => some (d :: out, rest)
  | '\\' :: [] => none
  | c :: cs =>
    match scanStringBody cs with
    | none => none
    | some (out, rest) => some (c :: out, rest)

/-- Split a maximal run of leading decimal digits off the input. -/
def takeDigits : List Char → List Char × List Char
  | [] => ([], [])
  | c :: cs =>
    if c.isDigit then
      match takeDigits cs with
      | (ds, r) => (c :: ds, r)
    else ([], c :: cs)

/-- Numeric value of a digit run. -/
def digitsToNat (ds : List Char) : Nat :=
  ds.foldl (fun a c => a * 10 + (c.toNat - 48)) 0

/-- Parse a comma-separated list of JSON array elements up to the closing
bracket, given a parser `p` for one element.  Fuel bounds the number of
elements. -/
def parseElemsWith (p : List Char → Option (Json × List Char)) :
    Nat → List Char → Option (List Json × List Char)
  | 0, _ => none
  | fuel + 1, cs =>
    match p cs with
    | none => none
    | some (v, r) =>
      match skipWs r with
      | ',' :: r2 =>
        match parseElemsWith p fuel r2 with
        | none => none
        | some (es, r3) => some (v :: es, r3)
      | ']' :: r2 => some ([v], r2)
      | _ => none

/-- Parse a comma-separated list of JSON object members up to the closing
brace, given a parser `p` for one value. -/
def parseFieldsWith (p : List Char → Option (Json × List Char)) :
    Nat → List Char → Option (List (String × Json) × List Char)
  | 0, _ => none
  | fuel + 1, cs =>
    match skipWs cs with
    | '"' :: r =>
      match scanStringBody r with
      | none => none
      | some (key, r2) =>
        match skipWs r2 with
        | ':' :: r3 =>
          match p r3 with
          | none => none
          | some (v, r4) =>
            match skipWs r4 with
            | ',' :: r5 =>
              match parseFieldsWith p fuel r5 with
              | none => none
              | some (fs, r6) => some ((String.mk key, v) :: fs, r6)
            | '}' :: r5 => some ([(String.mk key, v)], r5)
            | _ => none
        | _ => none
    | _ => none

/-- Parse one JSON value; the fuel bounds the nesting depth (each level of
nesting consumes at least one input character, so `length + 1` is enough). -/
def parseVal : Nat → List Char → Option (Json × List Char)
  | 0, _ => none
  | fuel + 1, cs0 =>
    match skipWs cs0 with
    | [] => none
    | c :: rest =>
      if c = 'n' then
        match rest with
        | 'u' :: 'l' :: 'l' :: r => some (Json.null, r)
        | _ => none
      else if c = 't' then
        match rest with
        | 'r' :: 'u' :: 'e' :: r => some (Json.bool true, r)
        | _ => none
      else if c = 'f' then
        match rest with
        | 'a' :: 'l' :: 's' :: 'e' :: r => some (Json.bool false, r)
        | _ => none
      else if c = '"' then
        match scanStringBody rest with
        | none => none
        | some (out, r) => some (Json.str (String.mk out), r)
      else if c = '-' then
        match takeDigits rest with
        | ([], _) => none
        | (ds, r) => some (Json.num (-(Int.ofNat (digitsToNat ds))), r)
      else if c.isDigit then
        match takeDigits (c :: rest) with
        | (ds, r) => some (Json.num (Int.ofNat (digitsToNat ds)), r)
      else if c = '[' then
        match skipWs rest with
        | ']' :: r => some (Json.arr [], r)
        | cs2 =>
          match parseElemsWith (parseVal fuel) (cs2.length + 1) cs2 with
          | none => none
          | some (es, r) => some (Json.arr es, r)
      else if c = '{' then
        match skipWs rest with
        | '}' :: r => some (Json.obj [], r)
        | cs2 =>
          match parseFieldsWith (parseVal fuel) (cs2.length + 1) cs2 with
          | none => none
          | some (fs, r) => some (Json.obj fs, r)
      else none

/-- Model of `json.loads`: decode the whole input as a single JSON document
(anything but trailing whitespace after the value is a decode error, and a
decode error means the Python call raises). -/
def Json.parse (s : String) : Option Json :=
  match parseVal (s.length + 1) s.data with
  | none => none
  | some (v, rest) => if skipWs rest = [] then some v else none

/-- Backtick character (used to build the markdown code-fence patterns). -/
def btick : Char := Char.ofNat 96

/-- The characters of the fence marker removed first by `parse_workout`. -/
def fenceJson : List Char := [btick, btick, btick, 'j', 's', 'o', 'n']

/-- The characters of the bare fence marker removed second. -/
def fence : List Char := [btick, btick, btick]

/-- Whether `pat` is a prefix of `cs`. -/
def startsWithL : List Char → List Char → Bool
  | [], _ => true
  | _ :: _, [] => false
  | p :: ps, c :: cs => p = c && startsWithL ps cs

/-- Fueled worker for `replaceAll`; each step consumes at least one input
character, so fuel equal to the input length is enough. -/
def replaceAllF : Nat → List Char → List Char → List Char
  | 0, _, cs => cs
  | _, _, [] => []
  | fuel + 1, pat, c :: rest =>
    if pat.length != 0 && startsWithL pat (c :: rest) then
      replaceAllF fuel pat (List.drop (pat.length - 1) rest)
    else
      c :: replaceAllF fuel pat rest

/-- Model of Python `str.replace(pat, "")`: delete every non-overlapping
occurrence of `pat`, scanning left to right. -/
def replaceAll (pat cs : List Char) : List Char :=
  replaceAllF cs.length pat cs

/-- Model of Python `str.strip()`: drop leading and trailing whitespace. -/
def stripL (cs : List Char) : List Char :=
  skipWs ((skipWs cs.reverse).reverse)

/-- The response cleaning performed at app.py line 73:
`response.text.replace("```json", "").replace("```", "").strip()`. -/
def clean (s : String) : String :=
  String.mk (stripL (replaceAll fence (replaceAll fenceJson s.data)))

/-- Outcome of the Extraction Service call (`model.generate_content` followed
by reading `response.text`): either some failure that raises a Python
exception, or the raw response text. -/
inductive ServiceResponse where
  | failure
  | text (s : String)

/-- Model of `parse_workout` (app.py lines 54-76): on a service failure the
bare `except:` returns `None`; otherwise the response text is cleaned and
decoded, and a decode failure is also swallowed into `None`.  The prompt
construction has no effect on the returned value and is omitted. -/
def parse_workout (resp : ServiceResponse) : Option Json :=
  match resp with
  | ServiceResponse.failure => none
  | ServiceResponse.text s => Json.parse (clean s)

section ScratchTests

example : Json.parse "[1, 2]" = some (Json.arr [Json.num 1, Json.num 2]) := rfl

example :
    Json.parse "[\x7b\"exercise\": 5\x7d]"
      = some (Json.arr [Json.obj [("exercise", Json.num 5)]]) := rfl

example : Json.parse "oops" = none := rfl

example : Json.parse "[1, 2" = none := rfl

example :
    Json.parse "\x7b\"a\": [true, null, \"x\"]\x7d"
      = some (Json.obj [("a", Json.arr [Json.bool true, Json.null, Json.str "x"])]) := rfl

example : clean "  [1]  " = "[1]" := rfl

example : clean (String.mk (fenceJson ++ "[1]".data ++ fence)) = "[1]" := rfl

example : parse_workout (ServiceResponse.text "[-3]") = some (Json.arr [Json.num (-3)]) := rfl

end ScratchTests

/-- Python exception kinds that can arise in the tab-1 logging block. -/
inductive PyError where
  | attrError
  | keyError
  | typeError
deriving DecidableEq

/-- Lookup of a key in a decoded JSON object.  `json.loads` builds a Python
dict, where a duplicated key keeps its last value, hence the search from the
right. -/
def lookupKey (fields : List (String × Json)) (key : String) : Option Json :=
  (fields.reverse.find? (fun f => f.1 = key)).map (fun f => f.2)

/-- Model of Python `dict.get(key, default)`. -/
def dictGet (fields : List (String × Json)) (key : String) (dflt : Json) : Json :=
  (lookupKey fields key).getD dflt

/-- Worker for the model of Python `str.title()`: capitalize every alphabetic
character that follows a non-alphabetic one, lowercase the rest (ASCII
restriction of the Python rule). -/
def titleChars : Bool → List Char → List Char
  | _, [] => []
  | prevAlpha, c :: cs =>
    if c.isAlpha then
      (if prevAlpha then c.toLower else c.toUpper) :: titleChars true cs
    else c :: titleChars false cs

/-- Model of Python `str.title()`. -/
def pyTitle (s : String) : String := String.mk (titleChars false s.data)

/-- Model of `value.title()` on a decoded JSON value: Python raises
`AttributeError` unless the value is a string. -/
def titleJson : Json → Except PyError String
  | Json.str s => Except.ok (pyTitle s)
  | _ => Except.error PyError.attrError

/-- One iteration of the row-construction loop at app.py lines 130-138: the
fixed-order row `[date, exercise title-cased, weight, reps, notes,
muscle_group]` with the `.get` defaults; `item.get(...)` raises on a non-dict
item and `.title()` raises on a non-string exercise value. -/
def rowOf (date : String) : Json → Except PyError (List Json)
  | Json.obj fields =>
    match titleJson (dictGet fields "exercise" (Json.str "Unknown")) with
    | Except.error e => Except.error e
    | Except.ok exTitle =>
      Except.ok [Json.str date, Json.str exTitle,
        dictGet fields "weight" (Json.num 0),
        dictGet fields "reps" (Json.num 0),
        dictGet fields "notes" (Json.str ""),
        dictGet fields "muscle_group" (Json.str "Other")]
  | _ => Except.error PyError.attrError

/-- The whole row-construction loop; the first raised exception aborts the
loop (and with it the submission), exactly like the Python `for`. -/
def buildRows (date : String) : List Json → Except PyError (List (List Json))
  | [] => Except.ok []
  | it :: rest =>
    match rowOf date it with
    | Except.error e => Except.error e
    | Except.ok r =>
      match buildRows date rest with
      | Except.error e => Except.error e
      | Except.ok rs => Except.ok (r :: rs)

/-- Normal form of the row built for a decoded object whose `exercise` value
(if present) is a string; used to state what `rowOf` produces. -/
def titleCell : Json → String
  | Json.str s => pyTitle s
  | _ => "Unknown"

/-- The row the logging loop writes for the object with fields `fs`. -/
def rowFor (date : String) (fs : List (String × Json)) : List Json :=
  [Json.str date,
    Json.str (titleCell (dictGet fs "exercise" (Json.str "Unknown"))),
    dictGet fs "weight" (Json.num 0),
    dictGet fs "reps" (Json.num 0),
    dictGet fs "notes" (Json.str ""),
    dictGet fs "muscle_group" (Json.str "Other")]

/-- Typing guard for an item of the decoded list: it is an object and its
`exercise` value, when the key is present, is a string (so that `.title()`
does not raise). -/
def exerciseTyped : Json → Bool
  | Json.obj fs =>
    match lookupKey fs "exercise" with
    | none => true
    | some (Json.str _) => true
    | some _ => false
  | _ => false

/-- Whether a decoded item is an object lacking the `muscle_group` key. -/
def lacksMuscleGroup : Json → Bool
  | Json.obj fs => (lookupKey fs "muscle_group").isNone
  | _ => false

/-- Model of Python truthiness on a decoded JSON value, used by the
`if workout_data:` guard at app.py line 122. -/
def jsonTruthy : Json → Bool
  | Json.null => false
  | Json.bool b => b
  | Json.num n => n != 0
  | Json.str s => s.length != 0
  | Json.arr es => es.length != 0
  | Json.obj fs => fs.length != 0

/-- Rendering of one success card (app.py lines 146-157): the decoded dict is
indexed directly, so a missing `muscle_group` (accessed first, line 148),
`exercise`, `weight` or `reps` key raises `KeyError`; indexing a non-dict
raises `TypeError`. -/
def displayItem : Json → Except PyError Unit
  | Json.obj fields =>
    if (lookupKey fields "muscle_group").isSome
        && (lookupKey fields "exercise").isSome
        && (lookupKey fields "weight").isSome
        && (lookupKey fields "reps").isSome then
      Except.ok ()
    else Except.error PyError.keyError
  | _ => Except.error PyError.typeError

/-- The success-display loop over all decoded items; the first exception
aborts it. -/
def displayLoop : List Json → Except PyError Unit
  | [] => Except.ok ()
  | it :: rest =>
    match displayItem it with
    | Except.error e => Except.error e
    | Except.ok _ => displayLoop rest

/-- Messages surfaced to the user by the tab-1 block. -/
inductive Msg where
  | success (n : Nat)
  | errorMsg
  | aiError
deriving DecidableEq

/-- A spreadsheet cell as returned by `get_all_records`: the store delivers
numbers or free text. -/
inductive Cell where
  | num (n : Int)
  | str (s : String)
deriving DecidableEq

/-- One record of the stats table after `load_data` (the `Exercise` column has
already been normalized to a string there). -/
structure DfRow where
  date : String
  exercise : String
  weight : Cell
  reps : Cell
  muscleGroup : Cell
deriving DecidableEq

/-- Observable state of the app: the spreadsheet contents, the trace of
`append_rows` calls, the Streamlit data cache for `load_data`, and the
messages shown to the user. -/
structure AppState where
  sheetRows : List (List Json)
  appendCalls : List (List (List Json))
  cache : Option (List DfRow)
  messages : List Msg

/-- Model of the tab-1 submission handler (app.py lines 119-162) for a
non-empty submission.  `writeOk` models whether the external spreadsheet
machinery (`get_db_connection`, `open`, `worksheet`, `append_rows`, lines
124-126 and 140) succeeds; a failure there raises before any row is appended
and is caught at line 159.  On the success path the rows are appended in one
`append_rows` call, the cache is cleared (line 141), the success message is
shown, and only then does the per-item display run; a `KeyError` there is
caught by the same handler, after the write and the cache clear already
happened. -/
def runTab1 (resp : ServiceResponse) (writeOk : Bool) (date : String)
    (s0 : AppState) : AppState :=
  match parse_workout resp with
  | none => { s0 with messages := s0.messages ++ [Msg.aiError] }
  | some wd =>
    if jsonTruthy wd then
      match wd with
      | Json.arr items =>
        if writeOk then
          match buildRows date items with
          | Except.error _ => { s0 with messages := s0.messages ++ [Msg.errorMsg] }
          | Except.ok rows =>
            let s1 : AppState :=
              { s0 with
                sheetRows := s0.sheetRows ++ rows,
                appendCalls := s0.appendCalls ++ [rows],
                cache := none,
                messages := s0.messages ++ [Msg.success rows.length] }
            match displayLoop items with
            | Except.ok _ => s1
            | Except.error _ => { s1 with messages := s1.messages ++ [Msg.errorMsg] }
        else { s0 with messages := s0.messages ++ [Msg.errorMsg] }
      | _ => { s0 with messages := s0.messages ++ [Msg.errorMsg] }
    else { s0 with messages := s0.messages ++ [Msg.aiError] }

/-- Raw record of the stats read, keyed by the header row of the sheet. -/
structure RawRow where
  date : String
  exercise : Cell
  weight : Cell
  reps : Cell
  muscleGroup : Cell

/-- Outcome of the external read in `load_data`: either some gspread failure
(raising), or the header information plus all records. -/
inductive ReadResult where
  | failure
  | ok (hasMuscleGroup : Bool) (rows : List RawRow)

/-- Python `str(...)` on a cell, as applied by `.astype(str)`. -/
def pyStrOfCell : Cell → String
  | Cell.num n => toString n
  | Cell.str s => s

/-- Model of Python `str.strip()` on a `String`. -/
def stripStr (s : String) : String := String.mk (stripL s.data)

/-- The exercise normalization of app.py line 176:
`.astype(str).str.title().str.strip()`. -/
def normalizeEx (c : Cell) : String := stripStr (pyTitle (pyStrOfCell c))

/-- Model of `load_data` (app.py lines 169-180): any read failure is swallowed
into an empty table; an empty record list builds a `DataFrame` with no
columns, so the `df['Exercise']` access at line 176 raises `KeyError`, which
the same handler turns into an empty table; otherwise the exercise column is
normalized and a missing muscle-group column is filled with
`'Uncategorized'`. -/
def load_data : ReadResult → List DfRow
  | ReadResult.failure => []
  | ReadResult.ok hasMG rows =>
    match rows with
    | [] => []
    | _ =>
      rows.map (fun r =>
        { date := r.date, exercise := normalizeEx r.exercise,
          weight := r.weight, reps := r.reps,
          muscleGroup := if hasMG then r.muscleGroup else Cell.str "Uncategorized" })

/-- Model of the `@st.cache_data` wrapper around `load_data`: a warm cache is
returned as is; a cold cache performs the read and stores the result. -/
def cachedLoad (s : AppState) (r : ReadResult) : List DfRow × AppState :=
  match s.cache with
  | some t => (t, s)
  | none => (load_data r, { s with cache := some (load_data r) })

/-- The two filters of app.py lines 190 and 197: keep the rows of the selected
muscle group, then of the selected exercise.  Pandas `==` between a non-string
cell and the selected string is `False`, hence the comparison with
`Cell.str g`. -/
def exData (df : List DfRow) (g e : String) : List DfRow :=
  (df.filter (fun r => r.muscleGroup = Cell.str g)).filter (fun r => r.exercise = e)

/-- Model of `pd.to_numeric(x, errors='coerce')` on one cell, restricted to
integer numerals: a numeric cell passes through and a string cell parses as an
optionally signed integer numeral, anything else becoming missing (`NaN`). -/
def parseIntStr (s : String) : Option Int :=
  match s.data with
  | [] => none
  | '-' :: ds =>
    if !ds.isEmpty && ds.all Char.isDigit then
      some (-(Int.ofNat (digitsToNat ds)))
    else none
  | ds =>
    if ds.all Char.isDigit then some (Int.ofNat (digitsToNat ds)) else none

/-- Numeric coercion of one weight cell. -/
def toNumeric : Cell → Option Int
  | Cell.num n => some n
  | Cell.str s => parseIntStr s

/-- A stats row after the weight coercion of app.py line 198; `none` is the
model of `NaN`.  The reps column is carried through untouched, exactly as in
the source. -/
structure ExRow where
  date : String
  weight : Option Int
  reps : Cell
deriving DecidableEq

/-- The column assignment `ex_data['Weight'] = pd.to_numeric(ex_data['Weight'],
errors='coerce')` (app.py line 198). -/
def coerceStep (rows : List DfRow) : List ExRow :=
  rows.map (fun r => { date := r.date, weight := toNumeric r.weight, reps := r.reps })

/-- Maximum of a list of integers, `none` on the empty list; models a pandas
`max()` over the non-missing entries of a column. -/
def listMax : List Int → Option Int
  | [] => none
  | a :: as =>
    match listMax as with
    | none => some a
    | some b => some (max a b)

/-- The non-missing weights recorded on date `d`. -/
def weightsOn (rows : List ExRow) (d : String) : List Int :=
  (rows.filter (fun r => r.date = d)).filterMap (fun r => r.weight)

/-- Executable lexicographic order on character lists (by code point), the
order in which pandas sorts string group keys. -/
def lexLe : List Char → List Char → Bool
  | [], _ => true
  | _ :: _, [] => false
  | a :: as, b :: bs =>
    if a.toNat = b.toNat then lexLe as bs else decide (a.toNat < b.toNat)

theorem lexLe_total : ∀ as bs : List Char, lexLe as bs = true ∨ lexLe bs as = true
  | [], _ => Or.inl rfl
  | _ :: _, [] => Or.inr rfl
  | a :: as, b :: bs => by
    by_cases hab : a.toNat = b.toNat
    · have hba : b.toNat = a.toNat := hab.symm
      rcases lexLe_total as bs with h | h
      · left; simp only [lexLe, if_pos hab]; exact h
      · right; simp only [lexLe, if_pos hba]; exact h
    · have hba : ¬ b.toNat = a.toNat := fun hh => hab hh.symm
      rcases Nat.lt_or_ge a.toNat b.toNat with hlt | hge
      · left; simp only [lexLe, if_neg hab, decide_eq_true_eq]; exact hlt
      · have hlt : b.toNat < a.toNat := by omega
        right; simp only [lexLe, if_neg hba, decide_eq_true_eq]; exact hlt

theorem lexLe_trans :
    ∀ as bs cs : List Char,
      lexLe as bs = true → lexLe bs cs = true → lexLe as cs = true
  | [], _, _, _, _ => rfl
  | _ :: _, [], _, h1, _ => by simp [lexLe] at h1
  | _ :: _, _ :: _, [], _, h2 => by simp [lexLe] at h2
  | a :: as, b :: bs, c :: cs, h1, h2 => by
    by_cases hab : a.toNat = b.toNat
    · by_cases hbc : b.toNat = c.toNat
      · have hac : a.toNat = c.toNat := hab.trans hbc
        simp only [lexLe, if_pos hab] at h1
        simp only [lexLe, if_pos hbc] at h2
        simp only [lexLe, if_pos hac]
        exact lexLe_trans as bs cs h1 h2
      · simp only [lexLe, if_neg hbc, decide_eq_true_eq] at h2
        have hac : ¬ a.toNat = c.toNat := by omega
        simp only [lexLe, if_neg hac, decide_eq_true_eq]
        omega
    · simp only [lexLe, if_neg hab, decide_eq_true_eq] at h1
      by_cases hbc : b.toNat = c.toNat
      · have hac : ¬ a.toNat = c.toNat := by omega
        simp only [lexLe, if_neg hac, decide_eq_true_eq]
        omega
      · simp only [lexLe, if_neg hbc, decide_eq_true_eq] at h2
        have hac : ¬ a.toNat = c.toNat := by omega
        simp only [lexLe, if_neg hac, decide_eq_true_eq]
        omega

theorem lexLe_antisymm :
    ∀ as bs : List Char, lexLe as bs = true → lexLe bs as = true → as = bs
  | [], [], _, _ => rfl
  | [], _ :: _, _, h2 => by simp [lexLe] at h2
  | _ :: _, [], h1, _ => by simp [lexLe] at h1
  | a :: as, b :: bs, h1, h2 => by
    by_cases hab : a.toNat = b.toNat
    · have hba : b.toNat = a.toNat := hab.symm
      simp only [lexLe, if_pos hab] at h1
      simp only [lexLe, if_pos hba] at h2
      have ha : a = b := Char.eq_of_val_eq (UInt32.ext hab)
      rw [ha, lexLe_antisymm as bs h1 h2]
    · have hba : ¬ b.toNat = a.toNat := fun hh => hab hh.symm
      simp only [lexLe, if_neg hab, decide_eq_true_eq] at h1
      simp only [lexLe, if_neg hba, decide_eq_true_eq] at h2
      omega

/-- Ascending order on date strings. -/
def dateLe (a b : String) : Prop := lexLe a.data b.data = true

instance : DecidableRel dateLe := fun a b =>
  inferInstanceAs (Decidable (lexLe a.data b.data = true))

instance : IsTotal String dateLe := ⟨fun a b => lexLe_total a.data b.data⟩

instance : IsTrans String dateLe := ⟨fun a b c => lexLe_trans a.data b.data c.data⟩

instance : IsAntisymm String dateLe where
  antisymm a b h1 h2 := by
    cases a with
    | mk as =>
      cases b with
      | mk bs => rw [lexLe_antisymm as bs h1 h2]

/-- The distinct dates of the table in ascending order: the group keys
produced by `groupby('Date')`, which sorts its keys. -/
def datesOf (rows : List ExRow) : List String :=
  List.insertionSort dateLe ((rows.map (fun r => r.date)).dedup)

/-- Model of `ex_data.groupby('Date')['Weight'].max()` (app.py line 199): one
entry per distinct date in ascending date order, holding the maximum
non-missing weight of that date (`none` when the whole group is missing). -/
def progress (rows : List ExRow) : List (String × Option Int) :=
  (datesOf rows).map (fun d => (d, listMax (weightsOn rows d)))

/-- Model of `progress['Weight'].max()` (app.py line 205): the maximum over
the per-date maxima, skipping missing entries. -/
def maxLift (rows : List ExRow) : Option Int :=
  listMax ((progress rows).filterMap (fun p => p.2))

/-- Modelled from the spec: `lastWeight` is not computed by src/app.py (this
iteration only charts the series and shows the all-time max); per the spec it
is "the weight value of the chronologically last group in the series". -/
def lastWeight (rows : List ExRow) : Option Int :=
  match (progress rows).getLast? with
  | some p => p.2
  | none => none

/-- The tab-2 progress series for muscle group `g` and exercise `e`. -/
def tab2Progress (df : List DfRow) (g e : String) : List (String × Option Int) :=
  progress (coerceStep (exData df g e))

/-- The tab-2 all-time-best value for muscle group `g` and exercise `e`. -/
def tab2MaxLift (df : List DfRow) (g e : String) : Option Int :=
  maxLift (coerceStep (exData df g e))

/-- The tab-2 last-group weight (spec-modelled aggregate, see `lastWeight`). -/
def tab2LastWeight (df : List DfRow) (g e : String) : Option Int :=
  lastWeight (coerceStep (exData df g e))

section ScratchTests2

example : pyTitle "incline db press" = "Incline Db Press" := rfl

example : pyTitle "Unknown" = "Unknown" := rfl

example :
    rowOf "2026-10-12" (Json.obj [("exercise", Json.num 5)])
      = Except.error PyError.attrError := rfl

example :
    rowOf "2026-10-12" (Json.obj [("weight", Json.num 60)])
      = Except.ok [Json.str "2026-10-12", Json.str "Unknown", Json.num 60,
          Json.num 0, Json.str "", Json.str "Other"] := rfl

example :
    datesOf [⟨"2024-01-02", some 65, Cell.num 1⟩, ⟨"2024-01-01", some 50, Cell.num 1⟩]
      = ["2024-01-01", "2024-01-02"] := rfl

example :
    progress [⟨"2024-01-01", some 50, Cell.num 1⟩, ⟨"2024-01-01", some 70, Cell.num 1⟩,
        ⟨"2024-01-02", some 65, Cell.num 1⟩]
      = [("2024-01-01", some 70), ("2024-01-02", some 65)] := rfl

end ScratchTests2

section PipelineLemmas

/-- For an object whose `exercise` value (if present) is a string, the
row-construction loop body succeeds and builds exactly `rowFor`. -/
theorem rowOf_typed (date : String) (fs : List (String × Json))
    (h : exerciseTyped (Json.obj fs) = true) :
    rowOf date (Json.obj fs) = Except.ok (rowFor date fs) := by
  cases hl : lookupKey fs "exercise" with
  | none => simp [rowOf, rowFor, dictGet, hl, titleJson, titleCell]
  | some v =>
    cases v <;> simp [exerciseTyped, hl] at h
    simp [rowOf, rowFor, dictGet, hl, titleJson, titleCell]

/-- An item accepted by the typing guard is an object. -/
theorem exerciseTyped_obj (it : Json) (h : exerciseTyped it = true) :
    ∃ fs, it = Json.obj fs := by
  cases it <;> simp_all [exerciseTyped]

/-- With every item typed, the whole row-construction loop succeeds and maps
each object to its `rowFor` row. -/
theorem buildRows_typed (date : String) :
    ∀ items : List Json, (∀ it ∈ items, exerciseTyped it = true) →
      ∃ fss : List (List (String × Json)),
        items = fss.map Json.obj ∧
        buildRows date items = Except.ok (fss.map (rowFor date))
  | [], _ => ⟨[], rfl, rfl⟩
  | it :: rest, h => by
    have hit : exerciseTyped it = true := h it (List.mem_cons_self it rest)
    rcases exerciseTyped_obj it hit with ⟨fs, rfl⟩
    rcases buildRows_typed date rest
        (fun x hx => h x (List.mem_cons_of_mem _ hx)) with ⟨fss, hrest, hb⟩
    refine ⟨fs :: fss, by rw [List.map_cons, ← hrest], ?_⟩
    simp only [buildRows, rowOf_typed date fs hit, hb, List.map]

/-- Shape of the final state on the success path of the tab-1 handler: one
batch append of the built rows, the cache cleared, the success message shown,
and an extra error message exactly when the per-item display raises. -/
theorem runTab1_success_shape (t : String) (items : List Json) (date : String)
    (s0 : AppState) (rows : List (List Json))
    (hp : Json.parse (clean t) = some (Json.arr items))
    (hne : items ≠ [])
    (hb : buildRows date items = Except.ok rows) :
    (runTab1 (ServiceResponse.text t) true date s0).sheetRows
        = s0.sheetRows ++ rows ∧
    (runTab1 (ServiceResponse.text t) true date s0).appendCalls
        = s0.appendCalls ++ [rows] ∧
    (runTab1 (ServiceResponse.text t) true date s0).cache = none ∧
    (runTab1 (ServiceResponse.text t) true date s0).messages
        = s0.messages ++ [Msg.success rows.length] ++
            (match displayLoop items with
              | Except.ok _ => []
              | Except.error _ => [Msg.errorMsg]) := by
  have htruthy : jsonTruthy (Json.arr items) = true := by
    cases items with
    | nil => exact absurd rfl hne
    | cons a l => simp [jsonTruthy]
  unfold runTab1 parse_workout
  simp only [hp, htruthy, hb]
  cases hd : displayLoop items with
  | ok u => simp [hd]
  | error e => simp [hd]

/-- Shape of the final state when the external write machinery fails: only an
error message is added. -/
theorem runTab1_writeFail_shape (t : String) (items : List Json) (date : String)
    (s0 : AppState)
    (hp : Json.parse (clean t) = some (Json.arr items))
    (hne : items ≠ []) :
    runTab1 (ServiceResponse.text t) false date s0
      = { s0 with messages := s0.messages ++ [Msg.errorMsg] } := by
  have htruthy : jsonTruthy (Json.arr items) = true := by
    cases items with
    | nil => exact absurd rfl hne
    | cons a l => simp [jsonTruthy]
  unfold runTab1 parse_workout
  simp [hp, htruthy]

/-- The success display raises whenever some decoded object lacks the
`muscle_group` key (that key is indexed first, at app.py line 148). -/
theorem displayLoop_error_of_lacks :
    ∀ items : List Json, (∃ it ∈ items, lacksMuscleGroup it = true) →
      ∃ e, displayLoop items = Except.error e
  | [], h => by simp at h
  | it :: rest, h => by
    cases hd : displayItem it with
    | error e => exact ⟨e, by simp [displayLoop, hd]⟩
    | ok u =>
      have hit : lacksMuscleGroup it = false := by
        cases it <;> simp_all [lacksMuscleGroup, displayItem]
      rcases h with ⟨x, hx, hlx⟩
      rcases List.mem_cons.mp hx with rfl | hx2
      · rw [hit] at hlx; cases hlx
      · rcases displayLoop_error_of_lacks rest ⟨x, hx2, hlx⟩ with ⟨e, he⟩
        exact ⟨e, by simp [displayLoop, hd, he]⟩

end PipelineLemmas

section GroupingLemmas

/-- The maximum aggregate is invariant under permutation of its inputs. -/
theorem listMax_perm {l1 l2 : List Int} (h : l1.Perm l2) :
    listMax l1 = listMax l2 := by
  induction h with
  | nil => rfl
  | cons a h ih => simp [listMax, ih]
  | swap a b l =>
    cases hl : listMax l with
    | none => simp [listMax, hl, max_comm]
    | some c => simp [listMax, hl, max_left_comm]
  | trans h1 h2 ih1 ih2 => exact ih1.trans ih2

/-- Permuting the table permutes the non-missing weights of each date. -/
theorem weightsOn_perm {r1 r2 : List ExRow} (h : r1.Perm r2) (d : String) :
    (weightsOn r1 d).Perm (weightsOn r2 d) :=
  (h.filter _).filterMap _

/-- Permuting the table leaves the sorted distinct date list unchanged. -/
theorem datesOf_perm {r1 r2 : List ExRow} (h : r1.Perm r2) :
    datesOf r1 = datesOf r2 :=
  List.eq_of_perm_of_sorted
    (((List.perm_insertionSort dateLe _).trans ((h.map _).dedup)).trans
      (List.perm_insertionSort dateLe _).symm)
    (List.sorted_insertionSort dateLe _)
    (List.sorted_insertionSort dateLe _)

/-- Permuting the table leaves the whole per-date series unchanged. -/
theorem progress_perm {r1 r2 : List ExRow} (h : r1.Perm r2) :
    progress r1 = progress r2 := by
  unfold progress
  rw [datesOf_perm h]
  apply List.map_eq_map_iff.mpr
  intro d _
  rw [listMax_perm (weightsOn_perm h d)]

/-- Permuting the table leaves the overall maximum unchanged. -/
theorem maxLift_perm {r1 r2 : List ExRow} (h : r1.Perm r2) :
    maxLift r1 = maxLift r2 := by
  unfold maxLift
  rw [progress_perm h]

/-- Permuting the table leaves the last-group weight unchanged. -/
theorem lastWeight_perm {r1 r2 : List ExRow} (h : r1.Perm r2) :
    lastWeight r1 = lastWeight r2 := by
  unfold lastWeight
  rw [progress_perm h]

/-- Appending a row whose weight is missing changes no date's weight list. -/
theorem weightsOn_append_none (xs : List ExRow) (x : ExRow)
    (hw : x.weight = none) (d : String) :
    weightsOn (xs ++ [x]) d = weightsOn xs d := by
  unfold weightsOn
  rw [List.filter_append, List.filterMap_append]
  have hnil :
      List.filterMap (fun r => r.weight)
        (List.filter (fun r => decide (r.date = d)) [x]) = [] := by
    by_cases hx : x.date = d <;> simp [hx, hw]
  rw [hnil, List.append_nil]

/-- Appending a row whose weight is missing leaves the overall maximum
unchanged: the missing value is not treated as zero. -/
theorem maxLift_append_none (xs : List ExRow) (x : ExRow)
    (hw : x.weight = none) :
    maxLift (xs ++ [x]) = maxLift xs := by
  have hmap : progress (xs ++ [x])
      = (datesOf (xs ++ [x])).map (fun d => (d, listMax (weightsOn xs d))) := by
    unfold progress
    apply List.map_eq_map_iff.mpr
    intro d _
    rw [weightsOn_append_none xs x hw d]
  by_cases hmem : x.date ∈ xs.map (fun r => r.date)
  · have hperm : (datesOf (xs ++ [x])).Perm (datesOf xs) := by
      unfold datesOf
      refine ((List.perm_insertionSort dateLe _).trans ?_).trans
        (List.perm_insertionSort dateLe _).symm
      apply (List.perm_ext_iff_of_nodup (List.nodup_dedup _) (List.nodup_dedup _)).mpr
      intro a
      simp only [List.mem_dedup, List.map_append, List.mem_append, List.map_cons,
        List.map_nil, List.mem_singleton]
      constructor
      · rintro (ha | ha)
        · exact ha
        · rw [ha]; exact hmem
      · exact fun ha => Or.inl ha
    unfold maxLift
    rw [hmap]
    exact listMax_perm ((hperm.map _).filterMap _)
  · have hnd : (x.date :: (xs.map (fun r => r.date)).dedup).Nodup :=
      List.nodup_cons.mpr ⟨by simpa [List.mem_dedup] using hmem, List.nodup_dedup _⟩
    have hperm : (datesOf (xs ++ [x])).Perm
        (x.date :: datesOf xs) := by
      unfold datesOf
      refine (List.perm_insertionSort dateLe _).trans ?_
      have h1 : ((xs ++ [x]).map (fun r => r.date)).dedup.Perm
          (x.date :: (xs.map (fun r => r.date)).dedup) := by
        apply (List.perm_ext_iff_of_nodup (List.nodup_dedup _) hnd).mpr
        intro a
        simp only [List.mem_dedup, List.map_append, List.mem_append, List.map_cons,
          List.map_nil, List.mem_singleton, List.mem_cons]
        tauto
      exact h1.trans ((List.perm_insertionSort dateLe _).symm.cons x.date)
    have hw0 : weightsOn xs x.date = [] := by
      unfold weightsOn
      have hfil : List.filter (fun r => decide (r.date = x.date)) xs = [] := by
        apply List.filter_eq_nil_iff.mpr
        intro r hr
        simp only [decide_eq_true_eq]
        exact fun hh => hmem (List.mem_map.mpr ⟨r, hr, hh⟩)
      rw [hfil]; rfl
    unfold maxLift
    rw [hmap]
    have h2 := listMax_perm ((hperm.map
      (fun d => (d, listMax (weightsOn xs d)))).filterMap (fun p => p.2))
    rw [h2]
    simp [hw0, listMax, progress]

end GroupingLemmas

/-- Empty decoded arrays are falsy in Python, so the `if workout_data:` guard
sends them to the AI-error branch: nothing is appended and no cache is
touched. -/
theorem runTab1_empty (t : String) (date : String) (s0 : AppState)
    (hp : Json.parse (clean t) = some (Json.arr [])) :
    runTab1 (ServiceResponse.text t) true date s0
      = { s0 with messages := s0.messages ++ [Msg.aiError] } := by
  unfold runTab1 parse_workout
  simp [hp, jsonTruthy]

/-- C2: for every Extraction Service response whose cleaned text is not
decodable as JSON, `parse_workout` returns the failure value `none` and in
particular never a partial list of records. -/
theorem claim2_malformed_gives_none (t : String)
    (h : Json.parse (clean t) = none) :
    parse_workout (ServiceResponse.text t) = none := h

theorem claim2_malformed_gives_none_witness :
    parse_workout (ServiceResponse.text "not json") = none :=
  claim2_malformed_gives_none "not json" rfl

/-- C3 counterexample: the claim says a caller can tell a service failure
apart from malformed output through the ParseError reason, but the bare
`except:` of `parse_workout` (app.py line 75) returns the same value `None`
for both failure modes, so they are indistinguishable. -/
theorem claim3_counterexample :
    parse_workout ServiceResponse.failure
        = parse_workout (ServiceResponse.text "oops") ∧
    parse_workout ServiceResponse.failure = none :=
  ⟨rfl, rfl⟩

/-- C3 (amended): `parse_workout` collapses both failure modes into one
result: a network/service failure returns `none`, and a response whose
cleaned text does not decode returns that same `none`; no reason value is
carried, so a caller cannot distinguish the two. -/
theorem claim3_failures_indistinguishable (t : String)
    (h : Json.parse (clean t) = none) :
    parse_workout (ServiceResponse.text t)
      = parse_workout ServiceResponse.failure := h

theorem claim3_failures_indistinguishable_witness :
    parse_workout (ServiceResponse.text "nope")
      = parse_workout ServiceResponse.failure :=
  claim3_failures_indistinguishable "nope" rfl

/-- C1 counterexample: this response decodes to a JSON array of one object,
yet the pipeline records no SetRecord: the object's `exercise` value is the
number 5, so `.title()` raises `AttributeError` inside the row loop (app.py
line 133), the handler at line 159 reports an error, and nothing is
appended. -/
theorem claim1_counterexample :
    Json.parse (clean "[\x7b\"exercise\": 5\x7d]")
        = some (Json.arr [Json.obj [("exercise", Json.num 5)]]) ∧
    (runTab1 (ServiceResponse.text "[\x7b\"exercise\": 5\x7d]") true "2026-10-12"
        ⟨[], [], none, []⟩).sheetRows = [] ∧
    (runTab1 (ServiceResponse.text "[\x7b\"exercise\": 5\x7d]") true "2026-10-12"
        ⟨[], [], none, []⟩).appendCalls = [] ∧
    (runTab1 (ServiceResponse.text "[\x7b\"exercise\": 5\x7d]") true "2026-10-12"
        ⟨[], [], none, []⟩).messages = [Msg.errorMsg] :=
  ⟨rfl, rfl, rfl, rfl⟩

/-- C1 (amended): for every Extraction Service response whose cleaned text
decodes to a JSON array of N objects in which each present `exercise` value
is a string, the parse-and-record pipeline appends exactly N rows, the i-th
row built from the i-th object, and any key missing from a decoded object is
replaced by its default: weight 0, reps 0, exercise "Unknown", notes "",
muscle group "Other". -/
theorem claim1_parse_record_defaults (t : String) (items : List Json)
    (date : String) (s0 : AppState)
    (hp : Json.parse (clean t) = some (Json.arr items))
    (hty : ∀ it ∈ items, exerciseTyped it = true) :
    ∃ rows, buildRows date items = Except.ok rows ∧
      (runTab1 (ServiceResponse.text t) true date s0).sheetRows
          = s0.sheetRows ++ rows ∧
      rows.length = items.length ∧
      (∀ (i : Nat) (fs : List (String × Json)),
          items[i]? = some (Json.obj fs) →
          rows[i]? = some (rowFor date fs)) ∧
      (∀ fs, lookupKey fs "weight" = none →
          (rowFor date fs)[2]? = some (Json.num 0)) ∧
      (∀ fs, lookupKey fs "reps" = none →
          (rowFor date fs)[3]? = some (Json.num 0)) ∧
      (∀ fs, lookupKey fs "exercise" = none →
          (rowFor date fs)[1]? = some (Json.str "Unknown")) ∧
      (∀ fs, lookupKey fs "notes" = none →
          (rowFor date fs)[4]? = some (Json.str "")) ∧
      (∀ fs, lookupKey fs "muscle_group" = none →
          (rowFor date fs)[5]? = some (Json.str "Other")) := by
  rcases buildRows_typed date items hty with ⟨fss, hitems, hb⟩
  have hidx : ∀ (i : Nat) (fs : List (String × Json)),
      items[i]? = some (Json.obj fs) →
      (fss.map (rowFor date))[i]? = some (rowFor date fs) := by
    intro i fs hi
    rw [hitems, List.getElem?_map] at hi
    cases hfs : fss[i]? with
    | none => rw [hfs] at hi; cases hi
    | some fs0 =>
      rw [hfs] at hi
      simp only [Option.map_some', Option.some.injEq, Json.obj.injEq] at hi
      rw [List.getElem?_map, hfs, hi]
      rfl
  have hsheet : (runTab1 (ServiceResponse.text t) true date s0).sheetRows
      = s0.sheetRows ++ fss.map (rowFor date) := by
    by_cases hne : items = []
    · have hfss : fss = [] := by
        rw [hne] at hitems
        cases fss with
        | nil => rfl
        | cons a l => simp at hitems
      rw [runTab1_empty t date s0 (hne ▸ hp), hfss]
      simp
    · exact (runTab1_success_shape t items date s0 _ hp hne hb).1
  refine ⟨fss.map (rowFor date), hb, hsheet, by rw [hitems]; simp, hidx,
    ?_, ?_, ?_, ?_, ?_⟩
  · intro fs h
    simp [rowFor, dictGet, h]
  · intro fs h
    simp [rowFor, dictGet, h]
  · intro fs h
    simp [rowFor, dictGet, h, titleCell]
    rfl
  · intro fs h
    simp [rowFor, dictGet, h]
  · intro fs h
    simp [rowFor, dictGet, h]

/-- Demo response and its decoded items, used by the witnesses. -/
def demoT : String :=
  "[\x7b\"weight\": 60, \"reps\": 10\x7d, \x7b\"exercise\": \"bench press\"\x7d]"

/-- The decoded items of `demoT`. -/
def demoItems : List Json :=
  [Json.obj [("weight", Json.num 60), ("reps", Json.num 10)],
   Json.obj [("exercise", Json.str "bench press")]]

/-- Initial app state used by the witnesses (note the warm cache). -/
def demoState : AppState := ⟨[], [], some [], []⟩

example : Json.parse (clean demoT) = some (Json.arr demoItems) := rfl

theorem claim1_parse_record_defaults_witness :
    ∃ rows, buildRows "2026-10-12" demoItems = Except.ok rows ∧
      (runTab1 (ServiceResponse.text demoT) true "2026-10-12" demoState).sheetRows
        = demoState.sheetRows ++ rows ∧
      rows.length = demoItems.length := by
  rcases claim1_parse_record_defaults demoT demoItems "2026-10-12" demoState rfl
      (by decide) with ⟨rows, hb, hs, hlen, _⟩
  exact ⟨rows, hb, hs, hlen⟩

/-- C4: for every non-empty list of K parsed entries (decoded objects with
string-typed exercise values, per the SetRecord data model), the recorder maps
each entry to a row in the fixed column order [date, exercise, weight, reps,
notes, muscle_group] with the exercise title-cased at write time, and performs
exactly one batch `append_rows` call containing all K rows, every row carrying
the single date value assigned for the submission. -/
theorem claim4_record_batch (t : String) (items : List Json) (date : String)
    (s0 : AppState)
    (hp : Json.parse (clean t) = some (Json.arr items))
    (hne : items ≠ [])
    (hty : ∀ it ∈ items, exerciseTyped it = true) :
    ∃ rows, buildRows date items = Except.ok rows ∧
      (runTab1 (ServiceResponse.text t) true date s0).appendCalls
          = s0.appendCalls ++ [rows] ∧
      (runTab1 (ServiceResponse.text t) true date s0).sheetRows
          = s0.sheetRows ++ rows ∧
      rows.length = items.length ∧
      (∀ r ∈ rows, r.length = 6 ∧ r[0]? = some (Json.str date)) ∧
      (∀ (i : Nat) (fs : List (String × Json)),
          items[i]? = some (Json.obj fs) →
          rows[i]? = some (rowFor date fs)) ∧
      (∀ (fs : List (String × Json)) (s : String),
          dictGet fs "exercise" (Json.str "Unknown") = Json.str s →
          (rowFor date fs)[1]? = some (Json.str (pyTitle s))) := by
  rcases buildRows_typed date items hty with ⟨fss, hitems, hb⟩
  have hshape := runTab1_success_shape t items date s0 _ hp hne hb
  have hidx : ∀ (i : Nat) (fs : List (String × Json)),
      items[i]? = some (Json.obj fs) →
      (fss.map (rowFor date))[i]? = some (rowFor date fs) := by
    intro i fs hi
    rw [hitems, List.getElem?_map] at hi
    cases hfs : fss[i]? with
    | none => rw [hfs] at hi; cases hi
    | some fs0 =>
      rw [hfs] at hi
      simp only [Option.map_some', Option.some.injEq, Json.obj.injEq] at hi
      rw [List.getElem?_map, hfs, hi]
      rfl
  refine ⟨fss.map (rowFor date), hb, hshape.2.1, hshape.1, by rw [hitems]; simp,
    ?_, hidx, ?_⟩
  · intro r hr
    rcases List.mem_map.mp hr with ⟨fs, _, rfl⟩
    exact ⟨rfl, rfl⟩
  · intro fs s h
    simp [rowFor, h, titleCell]

theorem claim4_record_batch_witness :
    ∃ rows, buildRows "2026-10-12" demoItems = Except.ok rows ∧
      (runTab1 (ServiceResponse.text demoT) true "2026-10-12" demoState).appendCalls
        = demoState.appendCalls ++ [rows] ∧
      rows.length = demoItems.length := by
  rcases claim4_record_batch demoT demoItems "2026-10-12" demoState rfl
      (by simp [demoItems]) (by decide) with ⟨rows, hb, hap, _, hlen, _⟩
  exact ⟨rows, hb, hap, hlen⟩

/-- C5: after the batch append succeeds the Streamlit data cache is cleared
before control returns (even when the later success display raises), so a
subsequent cached load re-reads the store instead of serving the pre-write
table; when the external write machinery fails, the cache and the store are
left unchanged. -/
theorem claim5_cache_invalidation (t : String) (items : List Json)
    (date : String) (s0 : AppState)
    (hp : Json.parse (clean t) = some (Json.arr items))
    (hne : items ≠ [])
    (hty : ∀ it ∈ items, exerciseTyped it = true) :
    (runTab1 (ServiceResponse.text t) true date s0).cache = none ∧
    (runTab1 (ServiceResponse.text t) false date s0).cache = s0.cache ∧
    (runTab1 (ServiceResponse.text t) false date s0).sheetRows = s0.sheetRows ∧
    (∀ (s : AppState) (r : ReadResult), s.cache = none →
        (cachedLoad s r).1 = load_data r) := by
  rcases buildRows_typed date items hty with ⟨fss, hitems, hb⟩
  refine ⟨(runTab1_success_shape t items date s0 _ hp hne hb).2.2.1, ?_, ?_, ?_⟩
  · rw [runTab1_writeFail_shape t items date s0 hp hne]
  · rw [runTab1_writeFail_shape t items date s0 hp hne]
  · intro s r hs
    unfold cachedLoad
    rw [hs]

theorem claim5_cache_invalidation_witness :
    (runTab1 (ServiceResponse.text demoT) true "2026-10-12" demoState).cache
        = none ∧
    (runTab1 (ServiceResponse.text demoT) false "2026-10-12" demoState).cache
        = demoState.cache :=
  ⟨(claim5_cache_invalidation demoT demoItems "2026-10-12" demoState rfl
      (by simp [demoItems]) (by decide)).1,
   (claim5_cache_invalidation demoT demoItems "2026-10-12" demoState rfl
      (by simp [demoItems]) (by decide)).2.1⟩

/-- C10: when some decoded object lacks the `muscle_group` key, the batch
append still executes and persists every row (with "Other" written in the
muscle-group column), the cache is cleared and the success message is shown,
but the success display then indexes `item['muscle_group']` directly and
raises, so the handler also reports an error for the submission — an error
report does not imply that no rows were appended. -/
theorem claim10_write_then_error (t : String) (items : List Json)
    (date : String) (s0 : AppState)
    (hp : Json.parse (clean t) = some (Json.arr items))
    (hty : ∀ it ∈ items, exerciseTyped it = true)
    (hmg : ∃ it ∈ items, lacksMuscleGroup it = true) :
    ∃ rows, buildRows date items = Except.ok rows ∧
      (runTab1 (ServiceResponse.text t) true date s0).sheetRows
          = s0.sheetRows ++ rows ∧
      rows.length = items.length ∧
      (∀ (i : Nat) (fs : List (String × Json)),
          items[i]? = some (Json.obj fs) → lookupKey fs "muscle_group" = none →
          rows[i]? = some (rowFor date fs) ∧
          (rowFor date fs)[5]? = some (Json.str "Other")) ∧
      (runTab1 (ServiceResponse.text t) true date s0).messages
          = s0.messages ++ [Msg.success rows.length, Msg.errorMsg] := by
  have hne : items ≠ [] := by
    rcases hmg with ⟨x, hx, _⟩
    intro hnil
    rw [hnil] at hx
    cases hx
  rcases buildRows_typed date items hty with ⟨fss, hitems, hb⟩
  have hshape := runTab1_success_shape t items date s0 _ hp hne hb
  rcases displayLoop_error_of_lacks items hmg with ⟨e, he⟩
  have hmsg : (runTab1 (ServiceResponse.text t) true date s0).messages
      = s0.messages ++ [Msg.success (fss.map (rowFor date)).length, Msg.errorMsg] := by
    rw [hshape.2.2.2, he]
    simp
  have hidx : ∀ (i : Nat) (fs : List (String × Json)),
      items[i]? = some (Json.obj fs) →
      (fss.map (rowFor date))[i]? = some (rowFor date fs) := by
    intro i fs hi
    rw [hitems, List.getElem?_map] at hi
    cases hfs : fss[i]? with
    | none => rw [hfs] at hi; cases hi
    | some fs0 =>
      rw [hfs] at hi
      simp only [Option.map_some', Option.some.injEq, Json.obj.injEq] at hi
      rw [List.getElem?_map, hfs, hi]
      rfl
  refine ⟨fss.map (rowFor date), hb, hshape.1, by rw [hitems]; simp, ?_, hmsg⟩
  intro i fs hi hmiss
  exact ⟨hidx i fs hi, by simp [rowFor, dictGet, hmiss]⟩

/-- Demo input for the C10 witness: one object without `muscle_group`. -/
def demoT10 : String :=
  "[\x7b\"exercise\": \"squat\", \"weight\": 100, \"reps\": 5, \"notes\": \"pr\"\x7d]"

/-- The decoded items of `demoT10`. -/
def demoItems10 : List Json :=
  [Json.obj [("exercise", Json.str "squat"), ("weight", Json.num 100),
    ("reps", Json.num 5), ("notes", Json.str "pr")]]

example : Json.parse (clean demoT10) = some (Json.arr demoItems10) := rfl

theorem claim10_write_then_error_witness :
    ∃ rows, buildRows "2026-10-12" demoItems10 = Except.ok rows ∧
      (runTab1 (ServiceResponse.text demoT10) true "2026-10-12" demoState).sheetRows
        = demoState.sheetRows ++ rows ∧
      (runTab1 (ServiceResponse.text demoT10) true "2026-10-12" demoState).messages
        = demoState.messages ++ [Msg.success rows.length, Msg.errorMsg] := by
  rcases claim10_write_then_error demoT10 demoItems10 "2026-10-12" demoState rfl
      (by decide) (by decide) with ⟨rows, hb, hs, _, _, hm⟩
  exact ⟨rows, hb, hs, hm⟩

/-- Store contents for the C6 scenario: dated weight entries
[(d1,50),(d1,70),(d2,65)] for one exercise. -/
def demoStore : List DfRow :=
  [⟨"2024-01-01", "Bench", Cell.num 50, Cell.num 10, Cell.str "Chest"⟩,
   ⟨"2024-01-01", "Bench", Cell.num 70, Cell.num 8, Cell.str "Chest"⟩,
   ⟨"2024-01-02", "Bench", Cell.num 65, Cell.num 10, Cell.str "Chest"⟩]

/-- C6: the progress series groups the rows of one exercise by date taking the
maximum weight per date, and on the store [(d1,50),(d1,70),(d2,65)] it equals
[(d1,70),(d2,65)] with overall maximum 70 and (spec-modelled) last-group
weight 65. -/
theorem claim6_progress_scenario :
    (∀ (rows : List ExRow) (p : String × Option Int),
        p ∈ progress rows → p.2 = listMax (weightsOn rows p.1)) ∧
    tab2Progress demoStore "Chest" "Bench"
        = [("2024-01-01", some 70), ("2024-01-02", some 65)] ∧
    tab2MaxLift demoStore "Chest" "Bench" = some 70 ∧
    tab2LastWeight demoStore "Chest" "Bench" = some 65 := by
  refine ⟨?_, rfl, rfl, rfl⟩
  intro rows p hp
  unfold progress at hp
  rcases List.mem_map.mp hp with ⟨d, _, rfl⟩
  rfl

theorem claim6_progress_scenario_witness :
    (("2024-01-01", some (70 : Int)) : String × Option Int).2
      = listMax (weightsOn (coerceStep (exData demoStore "Chest" "Bench"))
          "2024-01-01") :=
  claim6_progress_scenario.1 (coerceStep (exData demoStore "Chest" "Bench"))
    ("2024-01-01", some (70 : Int)) (by decide)

/-- A row whose reps cell is free text, for the C7 counterexample. -/
def badRepsRow : DfRow :=
  ⟨"2024-01-01", "Bench", Cell.num 50, Cell.str "abc", Cell.str "Chest"⟩

/-- C7 counterexample: the claim says the Reporter coerces both the weight and
the reps columns, but app.py line 198 coerces only `Weight`: a non-numeric
reps cell survives the coercion step verbatim instead of becoming missing. -/
theorem claim7_counterexample :
    toNumeric (Cell.str "abc") = none ∧
    (coerceStep [badRepsRow]).map (fun r => r.reps) = [Cell.str "abc"] :=
  ⟨rfl, rfl⟩

/-- C7 (amended): the Reporter coerces only the weight column to numeric; a
non-numeric weight cell is treated as missing — it contributes to no date's
weight list and leaves the overall maximum unchanged (it is not counted as
zero) — while the reps column is carried through uncoerced. -/
theorem claim7_weight_coercion_only (rows : List DfRow) (r : DfRow)
    (h : toNumeric r.weight = none) :
    ((coerceStep rows).map (fun x => x.reps) = rows.map (fun x => x.reps)) ∧
    (∀ d, weightsOn (coerceStep (rows ++ [r])) d
        = weightsOn (coerceStep rows) d) ∧
    maxLift (coerceStep (rows ++ [r])) = maxLift (coerceStep rows) := by
  have hcs : coerceStep (rows ++ [r])
      = coerceStep rows ++ [⟨r.date, none, r.reps⟩] := by
    unfold coerceStep
    rw [List.map_append]
    simp [h]
  refine ⟨?_, ?_, ?_⟩
  · unfold coerceStep
    rw [List.map_map]
    rfl
  · intro d
    rw [hcs]
    exact weightsOn_append_none _ _ rfl d
  · rw [hcs]
    exact maxLift_append_none _ _ rfl

/-- A row whose weight cell is free text, for the C7 witness. -/
def badWeightRow : DfRow :=
  ⟨"2024-01-03", "Bench", Cell.str "heavy", Cell.num 5, Cell.str "Chest"⟩

theorem claim7_weight_coercion_only_witness :
    maxLift (coerceStep ([] ++ [badWeightRow])) = maxLift (coerceStep []) ∧
    weightsOn (coerceStep ([] ++ [badWeightRow])) "2024-01-03"
      = weightsOn (coerceStep []) "2024-01-03" :=
  ⟨(claim7_weight_coercion_only [] badWeightRow rfl).2.2,
   (claim7_weight_coercion_only [] badWeightRow rfl).2.1 "2024-01-03"⟩

/-- C8: a failed read and an empty store both load as the empty table rather
than an error, and the summarizer on the empty table yields the empty series
and missing aggregates without failing. -/
theorem claim8_empty_store :
    load_data ReadResult.failure = [] ∧
    (∀ b : Bool, load_data (ReadResult.ok b []) = []) ∧
    (∀ g e : String, tab2Progress [] g e = []) ∧
    (∀ g e : String, tab2MaxLift [] g e = none) ∧
    (∀ g e : String, tab2LastWeight [] g e = none) := by
  refine ⟨rfl, ?_, ?_, ?_, ?_⟩
  · intro b
    cases b <;> rfl
  · intro g e
    rfl
  · intro g e
    rfl
  · intro g e
    rfl

/-- C9: the whole summary — the per-date series, the overall maximum and the
last-group weight — is invariant under permutation of the input table's
rows. -/
theorem claim9_summarize_perm_invariant (df1 df2 : List DfRow) (g e : String)
    (h : df1.Perm df2) :
    tab2Progress df1 g e = tab2Progress df2 g e ∧
    tab2MaxLift df1 g e = tab2MaxLift df2 g e ∧
    tab2LastWeight df1 g e = tab2LastWeight df2 g e := by
  have hex : (coerceStep (exData df1 g e)).Perm (coerceStep (exData df2 g e)) :=
    ((h.filter _).filter _).map _
  exact ⟨progress_perm hex, maxLift_perm hex, lastWeight_perm hex⟩

/-- A permutation of `demoStore`. -/
def demoStorePerm : List DfRow :=
  [⟨"2024-01-02", "Bench", Cell.num 65, Cell.num 10, Cell.str "Chest"⟩,
   ⟨"2024-01-01", "Bench", Cell.num 50, Cell.num 10, Cell.str "Chest"⟩,
   ⟨"2024-01-01", "Bench", Cell.num 70, Cell.num 8, Cell.str "Chest"⟩]

theorem claim9_summarize_perm_invariant_witness :
    tab2Progress demoStore "Chest" "Bench"
        = tab2Progress demoStorePerm "Chest" "Bench" ∧
    tab2MaxLift demoStore "Chest" "Bench"
        = tab2MaxLift demoStorePerm "Chest" "Bench" ∧
    tab2LastWeight demoStore "Chest" "Bench"
        = tab2LastWeight demoStorePerm "Chest" "Bench" :=
  claim9_summarize_perm_invariant demoStore demoStorePerm "Chest" "Bench"
    (by decide)
